import Mathlib

/-!
Shallow embedding of the image-upload lifecycle service
(`nextjs-neon-r2`): record store operations over the `images`
table, request validation schemas, and the three HTTP handlers
(presign POST, confirm POST, files GET/DELETE), together with the
bearer-token capability check.

The record store is modelled as a `List Image`; each database
operation is a pure function from the pre-state to the post-state
plus its returned rows.  External collaborators (the S3/R2 signer
and batch delete) are function parameters returning `Except`, so a
throwing call is `Except.error`.
-/

namespace ImgSvc

/-- Lifecycle status enum from the drizzle schema
(`pgEnum('status', ['pending','completed','failed','canceled','deleted'])`). -/
inductive Status where
  | pending
  | completed
  | failed
  | canceled
  | deleted
deriving DecidableEq, Repr, Inhabited

/-- A row of the `images` table (drizzle schema in `src/db/schema`).
Timestamps are modelled as `Nat` milliseconds; `completedAt` is nullable. -/
structure Image where
  id : String
  userId : String
  objectKey : String
  fileUrl : String
  mimeType : String
  sizeBytes : Int
  status : Status
  createdAt : Nat
  completedAt : Option Nat
deriving DecidableEq, Repr, Inhabited

/-- Result of `authCheck`: `{ authenticated: boolean; userId?: string }`. -/
structure AuthResult where
  authenticated : Bool
  userId : Option String
deriving DecidableEq, Repr

/-- `authCheck` from `src/app/api/images/auth.ts`: the request is
authenticated iff the `authorization` header is present and equals
`Bearer ${OUR_AUTH_TOKEN}`; on success the returned `userId` is the
token itself. -/
def authCheck (authHeader : Option String) (token : String) : AuthResult :=
  match authHeader with
  | none => { authenticated := false, userId := none }
  | some h =>
    if h = "Bearer " ++ token then { authenticated := true, userId := some token }
    else { authenticated := false, userId := none }

/-! ### Record store operations (`src/db/operations/images.ts`) -/

/-- The `WHERE` clause of `updateImageStatusBatch`:
`inArray(images.id, imageIds) AND eq(images.userId, userId)`.
Note: there is no condition on the current status. -/
def updateMatch (imageIds : List String) (userId : String) (img : Image) : Bool :=
  imageIds.contains img.id && img.userId == userId

/-- `updateImageStatusBatch(imageIds, status, userId)`: one `UPDATE`
setting `status` and `completedAt = new Date()` on every row whose id is
in `imageIds` and whose owner is `userId`; `.returning()` yields the
updated rows.  Returns (post-state table, returned rows). -/
def updateImageStatusBatch (db : List Image) (imageIds : List String)
    (status : Status) (userId : String) (now : Nat) : List Image × List Image :=
  let newDb := db.map fun img =>
    if updateMatch imageIds userId img then
      { img with status := status, completedAt := some now }
    else img
  (newDb, newDb.filter (updateMatch imageIds userId))

/-- The `WHERE` clause of `markImagesAsDeleted`: id in `imageIds`, owner
is `userId`, and current status is `completed` ("Only allow deletion of
completed images"). -/
def deleteMatch (imageIds : List String) (userId : String) (img : Image) : Bool :=
  imageIds.contains img.id && img.userId == userId && img.status == Status.completed

/-- `markImagesAsDeleted(imageIds, userId)`: one `UPDATE` setting
`status = 'deleted'` and `completedAt = new Date()` on every row matching
`deleteMatch`; `.returning()` yields the updated rows. -/
def markImagesAsDeleted (db : List Image) (imageIds : List String)
    (userId : String) (now : Nat) : List Image × List Image :=
  let newDb := db.map fun img =>
    if deleteMatch imageIds userId img then
      { img with status := Status.deleted, completedAt := some now }
    else img
  (newDb,
    (db.filter (deleteMatch imageIds userId)).map fun img =>
      { img with status := Status.deleted, completedAt := some now })

/-- `getImageObjectKeysByUserAndIds(userId, imageIds)`: `SELECT id,
objectKey FROM images WHERE userId = $u AND id IN $ids AND status =
'completed'`. -/
def getImageObjectKeysByUserAndIds (db : List Image) (userId : String)
    (imageIds : List String) : List (String × String) :=
  (db.filter fun img =>
      img.userId == userId && imageIds.contains img.id
        && img.status == Status.completed).map
    fun img => (img.id, img.objectKey)

/-- `getCompletedImagesByUserId(userId)`: owner-scoped projection of
`completed` rows (ordered by `createdAt` in the source; the relative
order of rows is preserved here). -/
def getCompletedImagesByUserId (db : List Image) (userId : String) : List Image :=
  db.filter fun img => img.userId == userId && img.status == Status.completed

/-- Insert payload of `createImageRecordsBatch` (a `NewImage` with
implicit `status: 'pending'`). -/
structure NewImageData where
  userId : String
  objectKey : String
  fileUrl : String
  mimeType : String
  sizeBytes : Int
deriving DecidableEq, Repr, Inhabited

/-- The rows inserted by `createImageRecordsBatch`: one row per payload
item, in order, each with `status: 'pending'`; the generated id of the
`idx`-th row is `freshIds.getD idx` (the database's
`gen_random_uuid()` values), `createdAt` is the insert time. -/
def createRows (imageData : List NewImageData) (freshIds : List String)
    (idx : Nat) (now : Nat) : List Image :=
  match imageData with
  | [] => []
  | d :: rest =>
    { id := freshIds.getD idx (toString idx)
      userId := d.userId
      objectKey := d.objectKey
      fileUrl := d.fileUrl
      mimeType := d.mimeType
      sizeBytes := d.sizeBytes
      status := Status.pending
      createdAt := now
      completedAt := none : Image } :: createRows rest freshIds (idx + 1) now

/-- `createImageRecordsBatch(imageData)`: one `INSERT ... VALUES` of all
rows with `status: 'pending'`; `.returning()` yields the created rows in
input order.  Returns (post-state table, created rows). -/
def createImageRecordsBatch (db : List Image) (imageData : List NewImageData)
    (freshIds : List String) (now : Nat) : List Image × List Image :=
  let created := createRows imageData freshIds 0 now
  (db ++ created, created)

/-! ### Request validation (`src/zod/images.ts`) -/

/-- Hexadecimal digit, as accepted by the uuid format. -/
def isHexDigit (c : Char) : Bool :=
  c.isDigit || (('a' ≤ c) && (c ≤ 'f')) || (('A' ≤ c) && (c ≤ 'F'))

/-- Model of zod's `.uuid()` string check: 36 characters in the
8-4-4-4-12 hyphenated hexadecimal shape. -/
def isUuid (s : String) : Bool :=
  let cs := s.data
  cs.length == 36 &&
    (List.range 36).all fun i =>
      match cs.get? i with
      | none => false
      | some c =>
        if i == 8 || i == 13 || i == 18 || i == 23 then c == '-' else isHexDigit c

/-- One element of `presignRequestSchema.images`
(`{fileId(uuid), fileType, fileSize}`). -/
structure SingleImageRequest where
  fileId : String
  fileType : String
  fileSize : Int
deriving DecidableEq, Repr, Inhabited

/-- `singleImageSchema`: `fileId` is a uuid, `fileType` nonempty,
`fileSize` positive and at most `MAX_IMAGE_SIZE_BYTES`. -/
def validSingleImage (maxSizeBytes : Int) (img : SingleImageRequest) : Bool :=
  isUuid img.fileId && decide (1 ≤ img.fileType.length)
    && decide (0 < img.fileSize) && decide (img.fileSize ≤ maxSizeBytes)

/-- `presignRequestSchema`: between 1 and `MAX_IMAGES` items, each valid
per `singleImageSchema`.  There is no intra-batch uniqueness condition on
`fileId`. -/
def presignRequestValid (maxImages : Nat) (maxSizeBytes : Int)
    (images : List SingleImageRequest) : Bool :=
  decide (1 ≤ images.length) && decide (images.length ≤ maxImages)
    && images.all (validSingleImage maxSizeBytes)

/-- One element of `confirmUploadSchema.updates`
(`{imageId(uuid), status: completed|failed}`). -/
structure ConfirmUpdate where
  imageId : String
  status : Status
deriving DecidableEq, Repr, Inhabited

/-- Per-item check of `confirmUploadSchema`: uuid id, status in the
two-element enum. -/
def confirmUpdateValid (u : ConfirmUpdate) : Bool :=
  isUuid u.imageId && (u.status == Status.completed || u.status == Status.failed)

/-- `confirmUploadSchema`: between 1 and `MAX_IMAGES` updates, each
valid. -/
def confirmRequestValid (maxImages : Nat) (updates : List ConfirmUpdate) : Bool :=
  decide (1 ≤ updates.length) && decide (updates.length ≤ maxImages)
    && updates.all confirmUpdateValid

/-- `deleteImagesSchema`: between 1 and `MAX_IMAGES` uuid ids. -/
def deleteRequestValid (maxImages : Nat) (imageIds : List String) : Bool :=
  decide (1 ≤ imageIds.length) && decide (imageIds.length ≤ maxImages)
    && imageIds.all isUuid

/-! ### Presign endpoint (`POST /api/images/presign`) -/

/-- `expiresIn: 3600` passed to `getSignedUrl` in
`getSignedUrlForUpload` (`src/utils/r2.ts`): the actual lifetime of the
presigned upload URL, in seconds. -/
def UPLOAD_URL_EXPIRES_IN_SECONDS : Nat := 3600

/-- `IMAGE_EXPIRATION_SECONDS = parseInt(process.env.NEXT_PUBLIC_MAX_IMAGE_SIZE_KB || '300')`
in the presign route: with the environment variable unset this is 300.
Note the route reads the max-image-size variable, not a TTL variable. -/
def DEFAULT_IMAGE_EXPIRATION_SECONDS : Nat := 300

/-- One element of `presignedResults` inside the presign handler. -/
structure PresignItem where
  objectKey : String
  presignedUrl : String
  publicFileUrl : String
  fileType : String
  fileSize : Int
  expiresAt : Nat
deriving DecidableEq, Repr, Inhabited

/-- One element of the presign response's `results` array. -/
structure PresignResult where
  objectKey : String
  presignedUrl : String
  publicFileUrl : String
  imageId : String
  expiresAt : Nat
deriving DecidableEq, Repr, Inhabited

/-- HTTP outcome of the presign handler. -/
inductive PresignOutcome where
  | unauthorized
  | badRequest
  | serverError
  | ok (results : List PresignResult)
deriving DecidableEq, Repr

/-- True on `Except.ok`. -/
def exceptOk {ε α : Type} : Except ε α → Bool
  | Except.ok _ => true
  | Except.error _ => false

/-- STEP 3 of the presign handler: one signer call per item (in
order), each producing `{objectKey, presignedUrl, publicFileUrl,
fileType, fileSize, expiresAt}` with `objectKey = userId/fileId`,
`publicFileUrl = R2_PUBLIC_BASE_URL/objectKey` and
`expiresAt = Date.now() + IMAGE_EXPIRATION_SECONDS * 1000`.  A signer
throw is `Except.error` (so `Promise.all` rejects iff any element is an
error). -/
def presignItems (userId : String) (publicBaseUrl : String)
    (imageExpirationSeconds : Nat)
    (signUrl : String → String → Int → Except Unit String)
    (images : List SingleImageRequest) (now : Nat) :
    List (Except Unit PresignItem) :=
  images.map fun img =>
    (signUrl (userId ++ "/" ++ img.fileId) img.fileType img.fileSize).map fun url =>
      { objectKey := userId ++ "/" ++ img.fileId
        presignedUrl := url
        publicFileUrl := publicBaseUrl ++ "/" ++ (userId ++ "/" ++ img.fileId)
        fileType := img.fileType
        fileSize := img.fileSize
        expiresAt := now + imageExpirationSeconds * 1000 }

/-- The successfully signed items (in the handler this is just
`presignedResults`, since `Promise.all` already rejected on any
failure). -/
def presignItemsOk (userId : String) (publicBaseUrl : String)
    (imageExpirationSeconds : Nat)
    (signUrl : String → String → Int → Except Unit String)
    (images : List SingleImageRequest) (now : Nat) : List PresignItem :=
  (presignItems userId publicBaseUrl imageExpirationSeconds signUrl images now).filterMap
    fun e => e.toOption

/-- STEP 4's insert payload: `presignedResults.map` onto
`{userId, objectKey, fileUrl, mimeType, sizeBytes}`. -/
def presignData (userId : String) (items : List PresignItem) : List NewImageData :=
  items.map fun r =>
    { userId := userId
      objectKey := r.objectKey
      fileUrl := r.publicFileUrl
      mimeType := r.fileType
      sizeBytes := r.fileSize }

/-- STEP 5's response payload: each presigned item combined with the id
of the database record created at the same index. -/
def presignResponse (presignedResults : List PresignItem)
    (imageRecords : List Image) : List PresignResult :=
  presignedResults.enum.map fun p =>
    { objectKey := p.2.objectKey
      presignedUrl := p.2.presignedUrl
      publicFileUrl := p.2.publicFileUrl
      imageId := (imageRecords.getD p.1 default).id
      expiresAt := p.2.expiresAt }

/-- The presign `POST` handler (`src/app/api/images/presign`, via the
unnamed route file).  `signUrl` models `getSignedUrlForUpload` (a throw
is `Except.error`); `insertOk` models whether the single
`createImageRecordsBatch` insert succeeds (a failed insert throws and is
caught, returning 500 with the table untouched); `freshIds` are the ids
the database would generate.  Returns (HTTP outcome, post-state table). -/
def presignPOST (authHeader : Option String) (token : String)
    (maxImages : Nat) (maxSizeBytes : Int)
    (publicBaseUrl : String) (imageExpirationSeconds : Nat)
    (signUrl : String → String → Int → Except Unit String)
    (insertOk : Bool) (freshIds : List String)
    (images : List SingleImageRequest) (db : List Image) (now : Nat) :
    PresignOutcome × List Image :=
  match authCheck authHeader token with
  | { authenticated := _, userId := none } => (PresignOutcome.unauthorized, db)
  | { authenticated := _, userId := some userId } =>
    if presignRequestValid maxImages maxSizeBytes images then
      if (presignItems userId publicBaseUrl imageExpirationSeconds signUrl images now).all
          exceptOk then
        if insertOk then
          (PresignOutcome.ok
              (presignResponse
                (presignItemsOk userId publicBaseUrl imageExpirationSeconds signUrl images now)
                (createImageRecordsBatch db
                  (presignData userId
                    (presignItemsOk userId publicBaseUrl imageExpirationSeconds signUrl images now))
                  freshIds now).2),
            (createImageRecordsBatch db
              (presignData userId
                (presignItemsOk userId publicBaseUrl imageExpirationSeconds signUrl images now))
              freshIds now).1)
        else (PresignOutcome.serverError, db)
      else (PresignOutcome.serverError, db)
    else (PresignOutcome.badRequest, db)

/-! ### Confirm endpoint (`POST /api/images/confirm`) -/

/-- HTTP outcome of the confirm handler. -/
inductive ConfirmOutcome where
  | unauthorized
  | badRequest
  | ok (updatedCount : Nat)
deriving DecidableEq, Repr

/-- The grouping step of the confirm handler (`updates.reduce` keyed by
status): ids of the updates carrying the given status, in request
order. -/
def groupByStatus (updates : List ConfirmUpdate) (st : Status) : List String :=
  (updates.filter fun u => u.status == st).map fun u => u.imageId

/-- The confirm `POST` handler (`src/app/api/images/confirm`, in the file
holding `authCheck`'s sibling route).  Groups updates by status, applies
`updateImageStatusBatch` for the `completed` group first and the `failed`
group second (each only when nonempty), and returns the total number of
returned rows as `updatedCount`. -/
def confirmPOST (authHeader : Option String) (token : String)
    (maxImages : Nat) (updates : List ConfirmUpdate)
    (db : List Image) (now : Nat) : ConfirmOutcome × List Image :=
  match authCheck authHeader token with
  | { authenticated := true, userId := some userId } =>
    if confirmRequestValid maxImages updates then
      let completedIds := groupByStatus updates Status.completed
      let failedIds := groupByStatus updates Status.failed
      let step1 :=
        if 0 < completedIds.length then
          updateImageStatusBatch db completedIds Status.completed userId now
        else (db, [])
      let step2 :=
        if 0 < failedIds.length then
          updateImageStatusBatch step1.1 failedIds Status.failed userId now
        else (step1.1, [])
      (ConfirmOutcome.ok (step1.2.length + step2.2.length), step2.1)
    else (ConfirmOutcome.badRequest, db)
  | _ => (ConfirmOutcome.unauthorized, db)

/-! ### Files endpoint (`GET`/`DELETE /api/images/files`) -/

/-- One entry of the S3 `DeleteObjects` response's `Errors` array. -/
structure S3Error where
  key : String
  code : String
  message : String
deriving DecidableEq, Repr, Inhabited

/-- HTTP outcome of the files `DELETE` handler.  `forbiddenNone` is the
403 returned when no requested image resolves (its body carries no ids);
`forbiddenMissing` is the 403 carrying `missingImageIds`. -/
inductive DeleteOutcome where
  | unauthorized
  | badRequest
  | forbiddenNone
  | forbiddenMissing (missingImageIds : List String)
  | storageError
  | ok (deletedCount : Nat) (deletedImages : List (String × String))
deriving DecidableEq, Repr

/-- The files `DELETE` handler.  `storageDelete` models
`deleteFiles(objectKeys)` (`Except.error` is a thrown call, `Except.ok
errs` a response whose `Errors` array is `errs`).  Strict order: resolve
owned `completed` keys, 403 on empty or partial resolution, storage
delete, 500 on a throw or any per-key error, and only then
`markImagesAsDeleted`. -/
def filesDELETE (authHeader : Option String) (token : String)
    (maxImages : Nat) (imageIds : List String) (db : List Image)
    (storageDelete : List String → Except Unit (List S3Error))
    (now : Nat) : DeleteOutcome × List Image :=
  match authCheck authHeader token with
  | { authenticated := true, userId := some userId } =>
    if deleteRequestValid maxImages imageIds then
      let imageObjectKeys := getImageObjectKeysByUserAndIds db userId imageIds
      if imageObjectKeys.length == 0 then (DeleteOutcome.forbiddenNone, db)
      else
        let foundImageIds := imageObjectKeys.map fun p => p.1
        let missingImageIds := imageIds.filter fun i => !foundImageIds.contains i
        if 0 < missingImageIds.length then
          (DeleteOutcome.forbiddenMissing missingImageIds, db)
        else
          let objectKeys := imageObjectKeys.map fun p => p.2
          match storageDelete objectKeys with
          | Except.error _ => (DeleteOutcome.storageError, db)
          | Except.ok errs =>
            if 0 < errs.length then (DeleteOutcome.storageError, db)
            else
              let delRes := markImagesAsDeleted db imageIds userId now
              (DeleteOutcome.ok delRes.2.length
                  (delRes.2.map fun img => (img.id, img.objectKey)),
                delRes.1)
    else (DeleteOutcome.badRequest, db)
  | _ => (DeleteOutcome.unauthorized, db)

/-- The files `GET` handler: 401 on failed auth, otherwise the
caller's completed images. -/
def filesGET (authHeader : Option String) (token : String)
    (db : List Image) : Option (List Image) :=
  match authCheck authHeader token with
  | { authenticated := true, userId := some userId } =>
    some (getCompletedImagesByUserId db userId)
  | _ => none

/-! ### Concrete fixtures used by closed theorems and witnesses -/

/-- A concrete configured bearer token (the deployment's caller id). -/
def tokFx : String := "aaaaaaaa-aaaa-aaaa-aaaa-aaaaaaaaaaaa"

/-- The matching authorization header. -/
def hdrFx : Option String := some ("Bearer " ++ tokFx)

/-- A concrete image id. -/
def id1Fx : String := "11111111-1111-1111-1111-111111111111"

/-- A second concrete image id. -/
def id2Fx : String := "22222222-2222-2222-2222-222222222222"

/-- A concrete `pending` record owned by the fixture caller. -/
def imgPendingFx : Image :=
  { id := id1Fx
    userId := tokFx
    objectKey := tokFx ++ "/" ++ id1Fx
    fileUrl := "https://pub/" ++ tokFx ++ "/" ++ id1Fx
    mimeType := "image/webp"
    sizeBytes := 100
    status := Status.pending
    createdAt := 0
    completedAt := none }

/-- The same record in `completed` status. -/
def imgCompletedFx : Image := { imgPendingFx with status := Status.completed }

/-- The same record in `deleted` status. -/
def imgDeletedFx : Image := { imgPendingFx with status := Status.deleted }

/-- A record owned by a different caller. -/
def imgOtherOwnerFx : Image :=
  { imgPendingFx with
      id := id2Fx
      userId := "bbbbbbbb-bbbb-bbbb-bbbb-bbbbbbbbbbbb"
      status := Status.completed }

/-- A signer that always succeeds. -/
def signOkFx (k : String) (ct : String) (sz : Int) : Except Unit String :=
  Except.ok ("signed-" ++ k)

/-- A storage batch delete that succeeds with no per-key errors. -/
def storageOkFx (ks : List String) : Except Unit (List S3Error) := Except.ok []

/-- A storage batch delete that reports one per-key error. -/
def storageErrFx (ks : List String) : Except Unit (List S3Error) :=
  Except.ok [{ key := "k", code := "InternalError", message := "failed" }]

/-- A signer that always throws. -/
def signFailFx (k : String) (ct : String) (sz : Int) : Except Unit String :=
  Except.error ()

/-- A presign batch holding the same `fileId` twice. -/
def dupBatchFx : List SingleImageRequest :=
  [ { fileId := id1Fx, fileType := "image/webp", fileSize := 100 },
    { fileId := id1Fx, fileType := "image/webp", fileSize := 100 } ]

end ImgSvc

namespace ImgSvc

/-! ### Helper lemmas -/

/-- `authCheck` either rejects with no identity or accepts with the
token itself as identity. -/
theorem authCheck_cases (h : Option String) (t : String) :
    authCheck h t = { authenticated := false, userId := none }
    ∨ authCheck h t = { authenticated := true, userId := some t } := by
  cases h with
  | none => exact Or.inl rfl
  | some s =>
    by_cases hs : s = "Bearer " ++ t
    · exact Or.inr (by simp [authCheck, hs])
    · exact Or.inl (by simp [authCheck, hs])

/-- A row owned by someone else is untouched by `updateImageStatusBatch`. -/
theorem updateBatch_getElem?_of_ne (db : List Image) (ids : List String)
    (st : Status) (u : String) (now : Nat) (j : Nat) (r : Image)
    (hj : db[j]? = some r) (hne : r.userId ≠ u) :
    (updateImageStatusBatch db ids st u now).1[j]? = some r := by
  unfold updateImageStatusBatch
  simp only [List.getElem?_map, hj, Option.map_some]
  have hm : updateMatch ids u r = false := by simp [updateMatch, hne]
  simp [hm]

/-- Every row returned by `updateImageStatusBatch` is owned by the
given caller. -/
theorem updateBatch_returned_owned (db : List Image) (ids : List String)
    (st : Status) (u : String) (now : Nat) :
    ∀ x ∈ (updateImageStatusBatch db ids st u now).2, x.userId = u := by
  intro x hx
  unfold updateImageStatusBatch at hx
  simp only [List.mem_filter] at hx
  have := hx.2
  simp [updateMatch] at this
  exact this.2

/-- A row owned by someone else is untouched by `markImagesAsDeleted`. -/
theorem markDeleted_getElem?_of_ne (db : List Image) (ids : List String)
    (u : String) (now : Nat) (j : Nat) (r : Image)
    (hj : db[j]? = some r) (hne : r.userId ≠ u) :
    (markImagesAsDeleted db ids u now).1[j]? = some r := by
  unfold markImagesAsDeleted
  simp only [List.getElem?_map, hj, Option.map_some]
  have hm : deleteMatch ids u r = false := by simp [deleteMatch, hne]
  simp [hm]

/-- A row not currently `completed` is untouched by
`markImagesAsDeleted`. -/
theorem markDeleted_getElem?_of_not_completed (db : List Image) (ids : List String)
    (u : String) (now : Nat) (j : Nat) (r : Image)
    (hj : db[j]? = some r) (hne : r.status ≠ Status.completed) :
    (markImagesAsDeleted db ids u now).1[j]? = some r := by
  unfold markImagesAsDeleted
  simp only [List.getElem?_map, hj, Option.map_some]
  have hm : deleteMatch ids u r = false := by simp [deleteMatch, hne]
  simp [hm]

/-- Every row returned by `markImagesAsDeleted` is owned by the given
caller. -/
theorem markDeleted_returned_owned (db : List Image) (ids : List String)
    (u : String) (now : Nat) :
    ∀ x ∈ (markImagesAsDeleted db ids u now).2, x.userId = u := by
  intro x hx
  unfold markImagesAsDeleted at hx
  simp only [List.mem_map, List.mem_filter] at hx
  obtain ⟨y, ⟨hy, hmatch⟩, hxy⟩ := hx
  simp [deleteMatch] at hmatch
  subst hxy
  simpa using hmatch.1.2

/-- A row owned by someone other than the configured token is untouched
by the confirm endpoint. -/
theorem confirmPOST_getElem?_of_ne (authHeader : Option String) (token : String)
    (maxImages : Nat) (updates : List ConfirmUpdate) (db : List Image) (now : Nat)
    (j : Nat) (r : Image) (hj : db[j]? = some r) (hne : r.userId ≠ token) :
    (confirmPOST authHeader token maxImages updates db now).2[j]? = some r := by
  unfold confirmPOST
  rcases authCheck_cases authHeader token with hA | hA <;> rw [hA]
  · exact hj
  · by_cases hv : confirmRequestValid maxImages updates = true
    · simp only [hv, if_true]
      by_cases h1 : 0 < (groupByStatus updates Status.completed).length
        <;> by_cases h2 : 0 < (groupByStatus updates Status.failed).length
        <;> simp only [h1, h2, if_true, if_false, if_pos, if_neg]
      · exact updateBatch_getElem?_of_ne _ _ _ _ _ _ _
          (updateBatch_getElem?_of_ne db _ _ _ _ _ _ hj hne) hne
      · exact updateBatch_getElem?_of_ne db _ _ _ _ _ _ hj hne
      · exact updateBatch_getElem?_of_ne db _ _ _ _ _ _ hj hne
      · exact hj
    · simp only [hv, if_false]
      exact hj

/-- A row owned by someone other than the configured token is untouched
by the files DELETE endpoint. -/
theorem filesDELETE_getElem?_of_ne (authHeader : Option String) (token : String)
    (maxImages : Nat) (imageIds : List String) (db : List Image)
    (storageDelete : List String → Except Unit (List S3Error)) (now : Nat)
    (j : Nat) (r : Image) (hj : db[j]? = some r) (hne : r.userId ≠ token) :
    (filesDELETE authHeader token maxImages imageIds db storageDelete now).2[j]? = some r := by
  unfold filesDELETE
  rcases authCheck_cases authHeader token with hA | hA <;> rw [hA]
  · exact hj
  · by_cases hv : deleteRequestValid maxImages imageIds = true
    · simp only [hv, if_true]
      by_cases h0 : ((getImageObjectKeysByUserAndIds db token imageIds).length == 0) = true
      · simp only [h0, if_true]
        exact hj
      · simp only [h0, if_false]
        by_cases h1 : 0 < (imageIds.filter fun i =>
            !((getImageObjectKeysByUserAndIds db token imageIds).map fun p => p.1).contains i).length
        · simp only [h1, if_true]
          exact hj
        · simp only [h1, if_false]
          cases hS : storageDelete ((getImageObjectKeysByUserAndIds db token imageIds).map fun p => p.2) with
          | error e => exact hj
          | ok errs =>
            by_cases h2 : 0 < errs.length
            · simp only [h2, if_true]
              exact hj
            · simp only [h2, if_false]
              exact markDeleted_getElem?_of_ne db imageIds token now j r hj hne
    · simp only [hv, if_false]
      exact hj

/-- A row not currently `completed` is untouched by the files DELETE
endpoint. -/
theorem filesDELETE_getElem?_of_not_completed (authHeader : Option String) (token : String)
    (maxImages : Nat) (imageIds : List String) (db : List Image)
    (storageDelete : List String → Except Unit (List S3Error)) (now : Nat)
    (j : Nat) (r : Image) (hj : db[j]? = some r) (hne : r.status ≠ Status.completed) :
    (filesDELETE authHeader token maxImages imageIds db storageDelete now).2[j]? = some r := by
  unfold filesDELETE
  rcases authCheck_cases authHeader token with hA | hA <;> rw [hA]
  · exact hj
  · by_cases hv : deleteRequestValid maxImages imageIds = true
    · simp only [hv, if_true]
      by_cases h0 : ((getImageObjectKeysByUserAndIds db token imageIds).length == 0) = true
      · simp only [h0, if_true]
        exact hj
      · simp only [h0, if_false]
        by_cases h1 : 0 < (imageIds.filter fun i =>
            !((getImageObjectKeysByUserAndIds db token imageIds).map fun p => p.1).contains i).length
        · simp only [h1, if_true]
          exact hj
        · simp only [h1, if_false]
          cases hS : storageDelete ((getImageObjectKeysByUserAndIds db token imageIds).map fun p => p.2) with
          | error e => exact hj
          | ok errs =>
            by_cases h2 : 0 < errs.length
            · simp only [h2, if_true]
              exact hj
            · simp only [h2, if_false]
              exact markDeleted_getElem?_of_not_completed db imageIds token now j r hj hne
    · simp only [hv, if_false]
      exact hj

/-- Either the files DELETE endpoint leaves the table untouched and does
not return 200, or the storage batch delete reported zero per-key errors
and the table is the result of `markImagesAsDeleted`. -/
theorem filesDELETE_db_cases (authHeader : Option String) (token : String)
    (maxImages : Nat) (imageIds : List String) (db : List Image)
    (storageDelete : List String → Except Unit (List S3Error)) (now : Nat) :
    ((filesDELETE authHeader token maxImages imageIds db storageDelete now).2 = db
      ∧ ∀ cnt del, (filesDELETE authHeader token maxImages imageIds db storageDelete now).1
          ≠ DeleteOutcome.ok cnt del)
    ∨ (storageDelete ((getImageObjectKeysByUserAndIds db token imageIds).map fun p => p.2)
          = Except.ok []
        ∧ (filesDELETE authHeader token maxImages imageIds db storageDelete now).2
          = (markImagesAsDeleted db imageIds token now).1) := by
  unfold filesDELETE
  rcases authCheck_cases authHeader token with hA | hA <;> rw [hA]
  · exact Or.inl ⟨by trivial, fun cnt del h => by cases h⟩
  · by_cases hv : deleteRequestValid maxImages imageIds = true
    · simp only [hv, if_true]
      by_cases h0 : ((getImageObjectKeysByUserAndIds db token imageIds).length == 0) = true
      · simp only [h0, if_true]
        exact Or.inl ⟨by trivial, fun cnt del h => by cases h⟩
      · simp only [h0, if_false]
        by_cases h1 : 0 < (imageIds.filter fun i =>
            !((getImageObjectKeysByUserAndIds db token imageIds).map fun p => p.1).contains i).length
        · simp only [h1, if_true]
          exact Or.inl ⟨by trivial, fun cnt del h => by cases h⟩
        · simp only [h1, if_false]
          cases hS : storageDelete ((getImageObjectKeysByUserAndIds db token imageIds).map fun p => p.2) with
          | error e => exact Or.inl ⟨by trivial, fun cnt del h => by cases h⟩
          | ok errs =>
            by_cases h2 : 0 < errs.length
            · simp only [h2, if_true]
              exact Or.inl ⟨by trivial, fun cnt del h => by cases h⟩
            · simp only [h2, if_false]
              have herrs : errs = [] := by
                cases errs with
                | nil => rfl
                | cons a l => exact absurd (Nat.succ_pos _) h2
              exact Or.inr ⟨by rw [herrs], rfl⟩
    · simp only [hv, if_false]
      exact Or.inl ⟨by trivial, fun cnt del h => by cases h⟩

/-- The batch insert creates exactly one row per payload item. -/
theorem createRows_length (imageData : List NewImageData) (freshIds : List String)
    (idx : Nat) (now : Nat) :
    (createRows imageData freshIds idx now).length = imageData.length := by
  induction imageData generalizing idx with
  | nil => rfl
  | cons d rest ih => simp [createRows, ih]

/-- Every row created by the batch insert comes from a payload item and
is `pending` with the insert timestamp and no completion time. -/
theorem createRows_mem (imageData : List NewImageData) (freshIds : List String)
    (idx : Nat) (now : Nat) :
    ∀ r ∈ createRows imageData freshIds idx now, ∃ d ∈ imageData,
      r.objectKey = d.objectKey ∧ r.userId = d.userId ∧ r.status = Status.pending
        ∧ r.createdAt = now ∧ r.completedAt = none := by
  induction imageData generalizing idx with
  | nil => intro r hr; simp [createRows] at hr
  | cons d rest ih =>
    intro r hr
    rcases List.mem_cons.mp hr with hr' | hr'
    · subst hr'
      exact ⟨d, List.mem_cons_self d rest, rfl, rfl, rfl, rfl, rfl⟩
    · obtain ⟨d', hd', hprops⟩ := ih (idx + 1) r hr'
      exact ⟨d', List.mem_cons_of_mem d hd', hprops⟩

/-- Extracting the payloads of an all-successful list of `Except`
results preserves the length. -/
theorem length_filterMap_toOption {α : Type} (l : List (Except Unit α))
    (h : l.all exceptOk = true) :
    (l.filterMap fun e => e.toOption).length = l.length := by
  induction l with
  | nil => rfl
  | cons e rest ih =>
    simp only [List.all_cons, Bool.and_eq_true] at h
    cases e with
    | error u => simp [exceptOk] at h
    | ok a =>
      rw [List.filterMap_cons_some
        (show (fun (e : Except Unit α) => e.toOption) (Except.ok a) = some a from rfl)]
      simp [ih h.2]

/-- When every signer call succeeded there is one signed item per
requested image. -/
theorem presignItemsOk_length (userId publicBaseUrl : String) (ttl : Nat)
    (signUrl : String → String → Int → Except Unit String)
    (images : List SingleImageRequest) (now : Nat)
    (h : (presignItems userId publicBaseUrl ttl signUrl images now).all exceptOk = true) :
    (presignItemsOk userId publicBaseUrl ttl signUrl images now).length = images.length := by
  unfold presignItemsOk
  rw [length_filterMap_toOption _ h]
  unfold presignItems
  exact List.length_map _ _

/-- If no record of `db` with id `i` is owned by `token` with status
`completed`, then `i` is not among the ids resolved by
`getImageObjectKeysByUserAndIds`. -/
theorem not_found_of_unresolvable (db : List Image) (token : String)
    (imageIds : List String) (i : String)
    (hbad : ∀ r ∈ db, r.id = i → (r.userId ≠ token ∨ r.status ≠ Status.completed)) :
    ((getImageObjectKeysByUserAndIds db token imageIds).map fun p => p.1).contains i = false := by
  by_cases hc : (((getImageObjectKeysByUserAndIds db token imageIds).map fun p => p.1).contains i) = true
  · exfalso
    have hmem : i ∈ ((getImageObjectKeysByUserAndIds db token imageIds).map fun p => p.1) := by
      simpa using hc
    simp only [List.mem_map] at hmem
    obtain ⟨p, hp, hpi⟩ := hmem
    unfold getImageObjectKeysByUserAndIds at hp
    simp only [List.mem_map, List.mem_filter] at hp
    obtain ⟨img, ⟨himg, hcond⟩, hpimg⟩ := hp
    simp only [Bool.and_eq_true, beq_iff_eq] at hcond
    have hid : img.id = i := by rw [← hpi, ← hpimg]
    rcases hbad img himg hid with h | h
    · exact h hcond.1.1
    · exact h hcond.2
  · simpa using hc

/-- A confirm request with a single `completed` update for an owned
record id updates that record (whatever its current status) and reports
`updatedCount = 1`. -/
theorem confirm_single_completed (authHeader : Option String) (token : String)
    (maxImages : Nat) (img : Image) (i : String) (now : Nat)
    (hh : authHeader = some ("Bearer " ++ token)) (hmax : 1 ≤ maxImages)
    (hu : isUuid i = true) (hid : img.id = i) (hown : img.userId = token) :
    confirmPOST authHeader token maxImages [⟨i, Status.completed⟩] [img] now
      = (ConfirmOutcome.ok 1,
          [{ img with status := Status.completed, completedAt := some now }]) := by
  have hA : authCheck authHeader token = { authenticated := true, userId := some token } := by
    rw [hh]; simp [authCheck]
  unfold confirmPOST
  rw [hA]
  have hvld : confirmRequestValid maxImages [⟨i, Status.completed⟩] = true := by
    simp [confirmRequestValid, confirmUpdateValid, hu, hmax]
  simp only [hvld, if_true]
  have hgc : groupByStatus [⟨i, Status.completed⟩] Status.completed = [i] := by
    simp [groupByStatus]
  have hgf : groupByStatus [⟨i, Status.completed⟩] Status.failed = ([] : List String) := by
    simp [groupByStatus]
  rw [hgc, hgf]
  have hm : updateMatch [i] token img = true := by
    simp [updateMatch, hid, hown]
  simp [updateImageStatusBatch, hm, updateMatch, hid, hown]

/-- C10: `authCheck` succeeds exactly on the header `"Bearer " ++ token`,
every authenticated request gets `userId = some token`, and hence any two
authenticated requests (even with different configured tokens' headers)
against the same deployment receive equal identities. -/
theorem C10_authCheck_single_identity (h : Option String) (t : String) :
    ((authCheck h t).authenticated = true ↔ h = some ("Bearer " ++ t))
    ∧ ((authCheck h t).authenticated = true → (authCheck h t).userId = some t)
    ∧ (∀ h₁ h₂ : Option String,
        (authCheck h₁ t).authenticated = true →
        (authCheck h₂ t).authenticated = true →
        (authCheck h₁ t).userId = (authCheck h₂ t).userId) := by
  refine ⟨?_, ?_, ?_⟩
  · constructor
    · intro hauth
      cases h with
      | none => simp [authCheck] at hauth
      | some s =>
        by_cases hs : s = "Bearer " ++ t
        · simp [hs]
        · simp [authCheck, hs] at hauth
    · rintro rfl
      simp [authCheck]
  · intro hauth
    cases h with
    | none => simp [authCheck] at hauth
    | some s =>
      by_cases hs : s = "Bearer " ++ t
      · simp [authCheck, hs]
      · simp [authCheck, hs] at hauth
  · intro h₁ h₂ ha₁ ha₂
    have e₁ : (authCheck h₁ t).userId = some t := by
      cases h₁ with
      | none => simp [authCheck] at ha₁
      | some s =>
        by_cases hs : s = "Bearer " ++ t
        · simp [authCheck, hs]
        · simp [authCheck, hs] at ha₁
    have e₂ : (authCheck h₂ t).userId = some t := by
      cases h₂ with
      | none => simp [authCheck] at ha₂
      | some s =>
        by_cases hs : s = "Bearer " ++ t
        · simp [authCheck, hs]
        · simp [authCheck, hs] at ha₂
    rw [e₁, e₂]

/-- Witness for C10 at a concrete header and token. -/
theorem C10_authCheck_single_identity_witness :
    (authCheck (some "Bearer tok") "tok").userId = (authCheck (some "Bearer tok") "tok").userId := by
  exact (C10_authCheck_single_identity (some "Bearer tok") "tok").2.2
    (some "Bearer tok") (some "Bearer tok") (by decide) (by decide)

/-- C1: if the storage batch delete reports a per-key error or throws
(anything other than a clean empty `Errors` array), the DELETE handler
leaves the record table untouched — no record transitions to `deleted` —
and does not return 200; conversely, any mutation of the table implies
the storage delete reported zero per-key errors. -/
theorem C1_storage_error_blocks_soft_delete
    (authHeader : Option String) (token : String) (maxImages : Nat)
    (imageIds : List String) (db : List Image)
    (storageDelete : List String → Except Unit (List S3Error)) (now : Nat) :
    (storageDelete ((getImageObjectKeysByUserAndIds db token imageIds).map fun p => p.2)
        ≠ Except.ok [] →
      (filesDELETE authHeader token maxImages imageIds db storageDelete now).2 = db
      ∧ ∀ cnt del, (filesDELETE authHeader token maxImages imageIds db storageDelete now).1
          ≠ DeleteOutcome.ok cnt del)
    ∧ ((filesDELETE authHeader token maxImages imageIds db storageDelete now).2 ≠ db →
      storageDelete ((getImageObjectKeysByUserAndIds db token imageIds).map fun p => p.2)
        = Except.ok []) := by
  rcases filesDELETE_db_cases authHeader token maxImages imageIds db storageDelete now with
    ⟨hdb, hok⟩ | ⟨hsd, _⟩
  · exact ⟨fun _ => ⟨hdb, hok⟩, fun hne => absurd hdb hne⟩
  · exact ⟨fun hne => absurd hsd hne, fun _ => hsd⟩

/-- Witness for C1: a DELETE of an owned completed record whose storage
delete reports one per-key error mutates nothing and is not a 200. -/
theorem C1_storage_error_blocks_soft_delete_witness :
    (filesDELETE hdrFx tokFx 5 [id1Fx] [imgCompletedFx] storageErrFx 7).2 = [imgCompletedFx]
    ∧ ∀ cnt del, (filesDELETE hdrFx tokFx 5 [id1Fx] [imgCompletedFx] storageErrFx 7).1
        ≠ DeleteOutcome.ok cnt del := by
  exact (C1_storage_error_blocks_soft_delete hdrFx tokFx 5 [id1Fx] [imgCompletedFx]
    storageErrFx 7).1 (by simp [storageErrFx])

/-- C7 amended: presign validation checks only per-item shape (uuid
`fileId`, nonempty type, bounded positive size) and batch bounds; it
does not reject duplicate `clientFileId`s within a batch, so a batch of
`n` copies of one valid item is accepted and the handler creates `n`
records all sharing the same storage key `{ownerId}/{clientFileId}`. -/
theorem C7_amended_duplicate_fileIds_accepted
    (maxImages : Nat) (maxSizeBytes : Int) (img : SingleImageRequest) (n : Nat)
    (hv : validSingleImage maxSizeBytes img = true) (h1 : 1 ≤ n) (h2 : n ≤ maxImages) :
    presignRequestValid maxImages maxSizeBytes (List.replicate n img) = true
    ∧ ∀ (token publicBaseUrl : String) (ttl : Nat) (url : String) (freshIds : List String)
        (db : List Image) (now : Nat),
        ∃ recs,
          (presignPOST (some ("Bearer " ++ token)) token maxImages maxSizeBytes publicBaseUrl
              ttl (fun k ct sz => Except.ok url) true freshIds (List.replicate n img) db now).2
            = db ++ recs
          ∧ recs.length = n
          ∧ ∀ r ∈ recs, r.objectKey = token ++ "/" ++ img.fileId := by
  have hval : presignRequestValid maxImages maxSizeBytes (List.replicate n img) = true := by
    unfold presignRequestValid
    rw [List.length_replicate]
    simp only [h1, h2, decide_True, Bool.true_and]
    rw [List.all_eq_true]
    intro x hx
    rw [List.eq_of_mem_replicate hx]
    exact hv
  refine ⟨hval, ?_⟩
  intro token publicBaseUrl ttl url freshIds db now
  have hA : authCheck (some ("Bearer " ++ token)) token
      = { authenticated := true, userId := some token } := by simp [authCheck]
  have hall : (presignItems token publicBaseUrl ttl (fun k ct sz => Except.ok url)
      (List.replicate n img) now).all exceptOk = true := by
    rw [List.all_eq_true]
    intro e he
    unfold presignItems at he
    simp only [List.mem_map] at he
    obtain ⟨x, hx, hxe⟩ := he
    rw [← hxe]
    rfl
  refine ⟨createRows (presignData token (presignItemsOk token publicBaseUrl ttl
      (fun k ct sz => Except.ok url) (List.replicate n img) now)) freshIds 0 now, ?_, ?_, ?_⟩
  · unfold presignPOST
    rw [hA]
    simp only [hval, hall, if_true]
    rfl
  · rw [createRows_length]
    unfold presignData
    rw [List.length_map]
    rw [presignItemsOk_length _ _ _ _ _ _ hall, List.length_replicate]
  · intro r hr
    obtain ⟨d, hd, hprops⟩ := createRows_mem _ freshIds 0 now r hr
    unfold presignData at hd
    simp only [List.mem_map] at hd
    obtain ⟨it, hit, hitd⟩ := hd
    unfold presignItemsOk at hit
    rw [List.mem_filterMap] at hit
    obtain ⟨e, he, heo⟩ := hit
    unfold presignItems at he
    simp only [List.mem_map] at he
    obtain ⟨x, hx, hxe⟩ := he
    rw [List.eq_of_mem_replicate hx] at hxe
    rw [← hxe] at heo
    have hito : it = { objectKey := token ++ "/" ++ img.fileId
                       presignedUrl := url
                       publicFileUrl := publicBaseUrl ++ "/" ++ (token ++ "/" ++ img.fileId)
                       fileType := img.fileType
                       fileSize := img.fileSize
                       expiresAt := now + ttl * 1000 } := by
      simpa [Except.map, Except.toOption] using heo.symm
    rw [hprops.1, ← hitd, hito]

/-- Witness for the amended C7: a two-copy batch of a concrete valid
item passes validation and creates two records with the same key. -/
theorem C7_amended_duplicate_fileIds_accepted_witness :
    presignRequestValid 5 1048576
      (List.replicate 2 { fileId := id1Fx, fileType := "image/webp", fileSize := 100 }) = true
    ∧ ∃ recs,
        (presignPOST (some ("Bearer " ++ tokFx)) tokFx 5 1048576 "https://pub"
            300 (fun k ct sz => Except.ok "u") true ["r1", "r2"]
            (List.replicate 2 { fileId := id1Fx, fileType := "image/webp", fileSize := 100 })
            [] 0).2 = [] ++ recs
        ∧ recs.length = 2
        ∧ ∀ r ∈ recs, r.objectKey = tokFx ++ "/" ++ id1Fx := by
  have h := C7_amended_duplicate_fileIds_accepted 5 1048576
    { fileId := id1Fx, fileType := "image/webp", fileSize := 100 } 2
    (by decide) (by decide) (by decide)
  exact ⟨h.1, h.2 tokFx "https://pub" 300 "u" ["r1", "r2"] [] 0⟩

/-- C9: a confirm request listing the same owned imageId under both
outcomes matches it in both grouped updates: the `completed` batch is
applied first and the `failed` batch second, so the record ends in
`failed` and `updatedCount` counts the single record twice. -/
theorem C9_conflicting_outcomes_failed_wins (authHeader : Option String) (token : String)
    (maxImages : Nat) (img : Image) (i : String) (now : Nat)
    (hh : authHeader = some ("Bearer " ++ token)) (hmax : 2 ≤ maxImages)
    (hu : isUuid i = true) (hid : img.id = i) (hown : img.userId = token) :
    confirmPOST authHeader token maxImages [⟨i, Status.completed⟩, ⟨i, Status.failed⟩] [img] now
      = (ConfirmOutcome.ok 2,
          [{ img with status := Status.failed, completedAt := some now }]) := by
  have hA : authCheck authHeader token = { authenticated := true, userId := some token } := by
    rw [hh]; simp [authCheck]
  unfold confirmPOST
  rw [hA]
  have hvld : confirmRequestValid maxImages [⟨i, Status.completed⟩, ⟨i, Status.failed⟩]
      = true := by
    simp [confirmRequestValid, confirmUpdateValid, hu, hmax]
  simp only [hvld, if_true]
  have hgc : groupByStatus [⟨i, Status.completed⟩, ⟨i, Status.failed⟩] Status.completed
      = [i] := by simp [groupByStatus]
  have hgf : groupByStatus [⟨i, Status.completed⟩, ⟨i, Status.failed⟩] Status.failed
      = [i] := by simp [groupByStatus]
  rw [hgc, hgf]
  simp [updateImageStatusBatch, updateMatch, hid, hown]

/-- Witness for C9 at a concrete pending record. -/
theorem C9_conflicting_outcomes_failed_wins_witness :
    confirmPOST hdrFx tokFx 5 [⟨id1Fx, Status.completed⟩, ⟨id1Fx, Status.failed⟩]
        [imgPendingFx] 7
      = (ConfirmOutcome.ok 2,
          [{ imgPendingFx with status := Status.failed, completedAt := some 7 }]) := by
  exact C9_conflicting_outcomes_failed_wins hdrFx tokFx 5 imgPendingFx id1Fx 7
    rfl (by decide) (by decide) rfl rfl

/-- C8: ownership isolation.  A record owned by a caller other than the
one the operation is scoped to is left entirely unchanged (same row at
the same position) by `updateImageStatusBatch`, `markImagesAsDeleted`,
the confirm endpoint and the files DELETE endpoint, and is excluded from
the returned result set (every returned row is owned by the caller). -/
theorem C8_ownership_isolation
    (db : List Image) (ids : List String) (st : Status) (u : String)
    (authHeader : Option String) (token : String) (maxImages : Nat)
    (updates : List ConfirmUpdate) (imageIds : List String)
    (storageDelete : List String → Except Unit (List S3Error))
    (now : Nat) (j : Nat) (r : Image) :
    (db[j]? = some r → r.userId ≠ u →
        (updateImageStatusBatch db ids st u now).1[j]? = some r)
    ∧ (∀ x ∈ (updateImageStatusBatch db ids st u now).2, x.userId = u)
    ∧ (db[j]? = some r → r.userId ≠ u →
        (markImagesAsDeleted db ids u now).1[j]? = some r)
    ∧ (∀ x ∈ (markImagesAsDeleted db ids u now).2, x.userId = u)
    ∧ (db[j]? = some r → r.userId ≠ token →
        (confirmPOST authHeader token maxImages updates db now).2[j]? = some r)
    ∧ (db[j]? = some r → r.userId ≠ token →
        (filesDELETE authHeader token maxImages imageIds db storageDelete now).2[j]? = some r) := by
  refine ⟨fun hj hne => updateBatch_getElem?_of_ne db ids st u now j r hj hne,
    updateBatch_returned_owned db ids st u now,
    fun hj hne => markDeleted_getElem?_of_ne db ids u now j r hj hne,
    markDeleted_returned_owned db ids u now,
    fun hj hne => confirmPOST_getElem?_of_ne authHeader token maxImages updates db now j r hj hne,
    fun hj hne =>
      filesDELETE_getElem?_of_ne authHeader token maxImages imageIds db storageDelete now j r hj hne⟩

/-- Witness for C8: a completed record owned by a different caller
survives a confirm and a DELETE request naming its id, unchanged. -/
theorem C8_ownership_isolation_witness :
    (updateImageStatusBatch [imgOtherOwnerFx] [id2Fx] Status.completed tokFx 7).1[0]? = some imgOtherOwnerFx
    ∧ (confirmPOST hdrFx tokFx 5 [⟨id2Fx, Status.completed⟩] [imgOtherOwnerFx] 7).2[0]? = some imgOtherOwnerFx
    ∧ (filesDELETE hdrFx tokFx 5 [id2Fx] [imgOtherOwnerFx] storageOkFx 7).2[0]? = some imgOtherOwnerFx := by
  have h := C8_ownership_isolation [imgOtherOwnerFx] [id2Fx] Status.completed tokFx
    hdrFx tokFx 5 [⟨id2Fx, Status.completed⟩] [id2Fx] storageOkFx 7 0 imgOtherOwnerFx
  exact ⟨h.1 rfl (by decide), h.2.2.2.2.1 rfl (by decide), h.2.2.2.2.2 rfl (by decide)⟩

/-- C2 counterexample: confirming the same `{imageId, completed}` twice
for the same owner returns `updatedCount = 1` both times, not `1` then
`0`.  The update's `WHERE` clause has no `status = 'pending'` condition,
so the already-`completed` row matches again. -/
theorem C2_counterexample_second_confirm_also_updates :
    (confirmPOST hdrFx tokFx 5 [⟨id1Fx, Status.completed⟩] [imgPendingFx] 7).1
        = ConfirmOutcome.ok 1
    ∧ (confirmPOST hdrFx tokFx 5 [⟨id1Fx, Status.completed⟩]
          (confirmPOST hdrFx tokFx 5 [⟨id1Fx, Status.completed⟩] [imgPendingFx] 7).2 9).1
        = ConfirmOutcome.ok 1
    ∧ ConfirmOutcome.ok 1 ≠ ConfirmOutcome.ok 0 := by
  refine ⟨rfl, rfl, by decide⟩

/-- C2 amended: confirm is idempotent in the resulting status value but
not in `updatedCount`: the update matches on id and owner only (there is
no `status = 'pending'` filter), so for a record already moved to a
terminal status a repeated confirm with the same `{imageId, completed}`
matches the row again and both calls return `updatedCount = 1`, not `1`
then `0`. -/
theorem C2_amended_repeat_confirm_updates_again (authHeader : Option String) (token : String)
    (maxImages : Nat) (img : Image) (i : String) (now now' : Nat)
    (hh : authHeader = some ("Bearer " ++ token)) (hmax : 1 ≤ maxImages)
    (hu : isUuid i = true) (hid : img.id = i) (hown : img.userId = token) :
    (confirmPOST authHeader token maxImages [⟨i, Status.completed⟩] [img] now).1
      = ConfirmOutcome.ok 1
    ∧ (confirmPOST authHeader token maxImages [⟨i, Status.completed⟩]
        (confirmPOST authHeader token maxImages [⟨i, Status.completed⟩] [img] now).2 now').1
      = ConfirmOutcome.ok 1 := by
  have h1 := confirm_single_completed authHeader token maxImages img i now hh hmax hu hid hown
  have h2 := confirm_single_completed authHeader token maxImages
    { img with status := Status.completed, completedAt := some now } i now' hh hmax hu hid hown
  constructor
  · rw [h1]
  · have hdb : (confirmPOST authHeader token maxImages [⟨i, Status.completed⟩] [img] now).2
        = [{ img with status := Status.completed, completedAt := some now }] := by rw [h1]
    rw [hdb, h2]

/-- Witness for the amended C2 at a concrete pending record. -/
theorem C2_amended_repeat_confirm_updates_again_witness :
    (confirmPOST hdrFx tokFx 5 [⟨id1Fx, Status.completed⟩] [imgPendingFx] 7).1
      = ConfirmOutcome.ok 1
    ∧ (confirmPOST hdrFx tokFx 5 [⟨id1Fx, Status.completed⟩]
        (confirmPOST hdrFx tokFx 5 [⟨id1Fx, Status.completed⟩] [imgPendingFx] 7).2 9).1
      = ConfirmOutcome.ok 1 := by
  exact C2_amended_repeat_confirm_updates_again hdrFx tokFx 5 imgPendingFx id1Fx 7 9
    rfl (by decide) (by decide) rfl rfl

/-- C3 counterexample: a record in `deleted` status referenced by a
confirm request is not excluded: it is updated to `completed`
(`updatedCount = 1`), so `completed` is reachable from a status other
than `pending`. -/
theorem C3_counterexample_deleted_record_updated :
    confirmPOST hdrFx tokFx 5 [⟨id1Fx, Status.completed⟩] [imgDeletedFx] 7
      = (ConfirmOutcome.ok 1,
          [{ imgDeletedFx with status := Status.completed, completedAt := some 7 }])
    ∧ imgDeletedFx.status ≠ Status.pending := by
  refine ⟨rfl, by decide⟩

/-- C3 amended: `updateImageStatusBatch` filters on id and owner only —
an owned referenced record transitions to the target status regardless
of its current status (also from `completed`, `failed`, `canceled` or
`deleted`), while a record that is not referenced or not owned keeps its
row unchanged.  Only ownership/existence, not `pending` status, excludes
a record from the update. -/
theorem C3_amended_update_ignores_status
    (db : List Image) (ids : List String) (st : Status) (u : String) (now : Nat)
    (j : Nat) (r : Image) (hj : db[j]? = some r) :
    (ids.contains r.id = true ∧ r.userId = u →
      (updateImageStatusBatch db ids st u now).1[j]?
        = some { r with status := st, completedAt := some now })
    ∧ (¬(ids.contains r.id = true ∧ r.userId = u) →
      (updateImageStatusBatch db ids st u now).1[j]? = some r) := by
  constructor
  · rintro ⟨hc, hu⟩
    unfold updateImageStatusBatch
    simp only [List.getElem?_map, hj, Option.map_some]
    have hm : updateMatch ids u r = true := by
      simp only [updateMatch, hc, Bool.true_and]
      simp [hu]
    simp [hm]
  · intro hn
    unfold updateImageStatusBatch
    simp only [List.getElem?_map, hj, Option.map_some]
    have hm : updateMatch ids u r = false := by
      rw [Bool.eq_false_iff]
      intro hmt
      simp only [updateMatch, Bool.and_eq_true, beq_iff_eq] at hmt
      exact hn ⟨hmt.1, hmt.2⟩
    simp [hm]

/-- Witness for the amended C3: an owned `deleted` record referenced by
a completed-batch update transitions to `completed`. -/
theorem C3_amended_update_ignores_status_witness :
    (updateImageStatusBatch [imgDeletedFx] [id1Fx] Status.completed tokFx 7).1[0]?
      = some { imgDeletedFx with status := Status.completed, completedAt := some 7 } := by
  exact (C3_amended_update_ignores_status [imgDeletedFx] [id1Fx] Status.completed tokFx 7 0
    imgDeletedFx rfl).1 ⟨by decide, rfl⟩

/-- C4 counterexample: a DELETE request whose only referenced record is
`pending` returns the 403 branch that carries no offending ids
(`forbiddenNone`, body `{error: 'No images found or images do not belong
to user'}`), so the claim's "identifying the offending ids" fails; no
record is mutated. -/
theorem C4_counterexample_pending_delete_403_without_ids :
    filesDELETE hdrFx tokFx 5 [id1Fx] [imgPendingFx] storageOkFx 7
      = (DeleteOutcome.forbiddenNone, [imgPendingFx])
    ∧ ∀ missing, DeleteOutcome.forbiddenNone ≠ DeleteOutcome.forbiddenMissing missing := by
  refine ⟨rfl, fun missing h => by cases h⟩

/-- C4 amended: an authenticated, schema-valid DELETE request
referencing an id that does not resolve to an owned `completed` record
(e.g. the record is `pending` or `failed`, or owned by another caller)
returns a 403 and mutates no record — `forbiddenMissing` identifies the
offending ids, but the all-offending case returns the generic 403
`forbiddenNone` without ids.  Moreover no record whose status is not
`completed` is ever touched by the DELETE handler, so `deleted` is
reachable only from `completed`. -/
theorem C4_amended_unresolvable_delete_forbidden
    (authHeader : Option String) (token : String) (maxImages : Nat)
    (imageIds : List String) (db : List Image)
    (storageDelete : List String → Except Unit (List S3Error)) (now : Nat) (i : String)
    (hh : authHeader = some ("Bearer " ++ token))
    (hv : deleteRequestValid maxImages imageIds = true)
    (hmem : i ∈ imageIds)
    (hbad : ∀ r ∈ db, r.id = i → (r.userId ≠ token ∨ r.status ≠ Status.completed)) :
    ((filesDELETE authHeader token maxImages imageIds db storageDelete now).2 = db
      ∧ ((filesDELETE authHeader token maxImages imageIds db storageDelete now).1
            = DeleteOutcome.forbiddenNone
        ∨ ∃ m, (filesDELETE authHeader token maxImages imageIds db storageDelete now).1
            = DeleteOutcome.forbiddenMissing m ∧ i ∈ m))
    ∧ (∀ (j : Nat) (r : Image), db[j]? = some r → r.status ≠ Status.completed →
        (filesDELETE authHeader token maxImages imageIds db storageDelete now).2[j]? = some r) := by
  constructor
  · have hA : authCheck authHeader token = { authenticated := true, userId := some token } := by
      rw [hh]; simp [authCheck]
    unfold filesDELETE
    rw [hA]
    simp only [hv, if_true]
    by_cases h0 : ((getImageObjectKeysByUserAndIds db token imageIds).length == 0) = true
    · simp only [h0, if_true]
      exact ⟨by trivial, Or.inl (by trivial)⟩
    · simp only [h0, if_false]
      have hcont := not_found_of_unresolvable db token imageIds i hbad
      have hi : i ∈ imageIds.filter fun x =>
          !((getImageObjectKeysByUserAndIds db token imageIds).map fun p => p.1).contains x := by
        rw [List.mem_filter]
        exact ⟨hmem, by rw [hcont]; rfl⟩
      have h1 : 0 < (imageIds.filter fun x =>
          !((getImageObjectKeysByUserAndIds db token imageIds).map fun p => p.1).contains x).length :=
        List.length_pos.mpr (List.ne_nil_of_mem hi)
      simp only [h1, if_true]
      exact ⟨by trivial, Or.inr ⟨_, by trivial, hi⟩⟩
  · intro j r hj hne
    exact filesDELETE_getElem?_of_not_completed authHeader token maxImages imageIds db
      storageDelete now j r hj hne

/-- Witness for the amended C4: deleting a single `pending` record owned
by the caller mutates nothing and returns a 403 branch. -/
theorem C4_amended_unresolvable_delete_forbidden_witness :
    (filesDELETE hdrFx tokFx 5 [id1Fx] [imgPendingFx] storageOkFx 7).2 = [imgPendingFx]
    ∧ ((filesDELETE hdrFx tokFx 5 [id1Fx] [imgPendingFx] storageOkFx 7).1
          = DeleteOutcome.forbiddenNone
      ∨ ∃ m, (filesDELETE hdrFx tokFx 5 [id1Fx] [imgPendingFx] storageOkFx 7).1
          = DeleteOutcome.forbiddenMissing m ∧ id1Fx ∈ m) := by
  exact (C4_amended_unresolvable_delete_forbidden hdrFx tokFx 5 [id1Fx] [imgPendingFx]
    storageOkFx 7 id1Fx rfl (by decide) (by decide)
    (by intro r hr hid; simp only [List.mem_singleton] at hr; subst hr
        exact Or.inr (by decide))).1

/-- C5: presign is all-or-nothing at the record layer.  If the write
grant (signer) fails for any item of the batch, the endpoint returns an
error and the record table is untouched; and in every case the
post-state table is either unchanged or extended by exactly one
`pending` record per requested item. -/
theorem C5_presign_all_or_nothing
    (authHeader : Option String) (token : String) (maxImages : Nat) (maxSizeBytes : Int)
    (publicBaseUrl : String) (ttl : Nat)
    (signUrl : String → String → Int → Except Unit String)
    (insertOk : Bool) (freshIds : List String)
    (images : List SingleImageRequest) (db : List Image) (now : Nat) :
    ((∃ img ∈ images,
        signUrl (token ++ "/" ++ img.fileId) img.fileType img.fileSize = Except.error ()) →
      (presignPOST authHeader token maxImages maxSizeBytes publicBaseUrl ttl signUrl insertOk
          freshIds images db now).2 = db
      ∧ ∀ rs, (presignPOST authHeader token maxImages maxSizeBytes publicBaseUrl ttl signUrl
          insertOk freshIds images db now).1 ≠ PresignOutcome.ok rs)
    ∧ ((presignPOST authHeader token maxImages maxSizeBytes publicBaseUrl ttl signUrl insertOk
          freshIds images db now).2 = db
      ∨ ∃ recs, (presignPOST authHeader token maxImages maxSizeBytes publicBaseUrl ttl signUrl
            insertOk freshIds images db now).2 = db ++ recs
          ∧ recs.length = images.length
          ∧ ∀ r ∈ recs, r.status = Status.pending) := by
  constructor
  · intro hex
    obtain ⟨img, hm, hfail⟩ := hex
    unfold presignPOST
    rcases authCheck_cases authHeader token with hA | hA <;> rw [hA]
    · exact ⟨by trivial, fun rs h => by cases h⟩
    · by_cases hvld : presignRequestValid maxImages maxSizeBytes images = true
      · simp only [hvld, if_true]
        have hallf : (presignItems token publicBaseUrl ttl signUrl images now).all exceptOk
            = false := by
          rw [Bool.eq_false_iff]
          intro hall
          rw [List.all_eq_true] at hall
          have hmemb : Except.map (fun url =>
              ({ objectKey := token ++ "/" ++ img.fileId
                 presignedUrl := url
                 publicFileUrl := publicBaseUrl ++ "/" ++ (token ++ "/" ++ img.fileId)
                 fileType := img.fileType
                 fileSize := img.fileSize
                 expiresAt := now + ttl * 1000 } : PresignItem))
              (signUrl (token ++ "/" ++ img.fileId) img.fileType img.fileSize)
              ∈ presignItems token publicBaseUrl ttl signUrl images now := by
            unfold presignItems
            exact List.mem_map_of_mem _ hm
          have hok := hall _ hmemb
          rw [hfail] at hok
          simp [exceptOk, Except.map] at hok
        simp only [hallf]
        exact ⟨by trivial, fun rs h => by cases h⟩
      · simp only [hvld, if_false]
        exact ⟨by trivial, fun rs h => by cases h⟩
  · unfold presignPOST
    rcases authCheck_cases authHeader token with hA | hA <;> rw [hA]
    · exact Or.inl (by trivial)
    · by_cases hvld : presignRequestValid maxImages maxSizeBytes images = true
      · simp only [hvld, if_true]
        by_cases hall : (presignItems token publicBaseUrl ttl signUrl images now).all exceptOk
            = true
        · simp only [hall, if_true]
          cases insertOk with
          | false => exact Or.inl (by trivial)
          | true =>
            refine Or.inr ⟨createRows (presignData token
                (presignItemsOk token publicBaseUrl ttl signUrl images now)) freshIds 0 now,
              by trivial, ?_, ?_⟩
            · rw [createRows_length]
              unfold presignData
              rw [List.length_map]
              exact presignItemsOk_length token publicBaseUrl ttl signUrl images now hall
            · intro r hr
              obtain ⟨d, hd, hprops⟩ := createRows_mem _ freshIds 0 now r hr
              exact hprops.2.2.1
        · simp only [hall]
          exact Or.inl (by trivial)
      · simp only [hvld, if_false]
        exact Or.inl (by trivial)

/-- Witness for C5: a presign request whose signer throws on its only
item creates no record and is not a 200. -/
theorem C5_presign_all_or_nothing_witness :
    (presignPOST hdrFx tokFx 5 1048576 "https://pub" 300 signFailFx true ["r1"]
        [{ fileId := id1Fx, fileType := "image/webp", fileSize := 100 }] [] 0).2 = []
    ∧ ∀ rs, (presignPOST hdrFx tokFx 5 1048576 "https://pub" 300 signFailFx true ["r1"]
        [{ fileId := id1Fx, fileType := "image/webp", fileSize := 100 }] [] 0).1
      ≠ PresignOutcome.ok rs := by
  exact (C5_presign_all_or_nothing hdrFx tokFx 5 1048576 "https://pub" 300 signFailFx true
    ["r1"] [{ fileId := id1Fx, fileType := "image/webp", fileSize := 100 }] [] 0).1
    ⟨{ fileId := id1Fx, fileType := "image/webp", fileSize := 100 },
      List.mem_cons_self _ _, rfl⟩

/-- C6: with the environment defaults, the presign response reports
`expiresAt = now + 300 s` (the route reads
`NEXT_PUBLIC_MAX_IMAGE_SIZE_KB || '300'` as its TTL), while the
presigned URL issued by `getSignedUrlForUpload` actually expires
`3600 s = 1 h` after issuance (`expiresIn: 3600`): the reported expiry
does not match the grant's actual 1-hour TTL. -/
theorem C6_reported_expiry_not_one_hour :
    (presignPOST hdrFx tokFx 5 1048576 "https://pub"
        DEFAULT_IMAGE_EXPIRATION_SECONDS signOkFx true ["r1"]
        [{ fileId := id1Fx, fileType := "image/webp", fileSize := 100 }] [] 0).1
      = PresignOutcome.ok
          [{ objectKey := tokFx ++ "/" ++ id1Fx
             presignedUrl := "signed-" ++ tokFx ++ "/" ++ id1Fx
             publicFileUrl := "https://pub/" ++ tokFx ++ "/" ++ id1Fx
             imageId := "r1"
             expiresAt := DEFAULT_IMAGE_EXPIRATION_SECONDS * 1000 }]
    ∧ DEFAULT_IMAGE_EXPIRATION_SECONDS * 1000 ≠ UPLOAD_URL_EXPIRES_IN_SECONDS * 1000 := by
  refine ⟨rfl, by decide⟩

/-- C7 counterexample: a presign batch holding the same `fileId` twice
passes `presignRequestSchema` validation, and the handler then creates
two records with the same storage key `{ownerId}/{clientFileId}`. -/
theorem C7_counterexample_duplicate_fileId_accepted :
    presignRequestValid 5 1048576 dupBatchFx = true
    ∧ ((presignPOST hdrFx tokFx 5 1048576 "https://pub" 300 signOkFx true
          ["r1", "r2"] dupBatchFx [] 0).2.map fun r => r.objectKey)
        = [tokFx ++ "/" ++ id1Fx, tokFx ++ "/" ++ id1Fx]
    ∧ ((presignPOST hdrFx tokFx 5 1048576 "https://pub" 300 signOkFx true
          ["r1", "r2"] dupBatchFx [] 0).2.length = 2) := by
  refine ⟨rfl, rfl, rfl⟩

end ImgSvc
